import Mathlib

/-!
Verification of the syntactic-analysis core of the Italian-Brain-Rot-Language
compiler: grammar model, FIRST/FOLLOW computation, LR(0) automaton, SLR(1)
table construction and the table-driven parser, shallowly embedded from
`src/utils/syntactic/{gramatica_util,ff_util,slr_util,derv_util}.py`.

Modelling conventions:
* Python strings are `String`; Python dicts are insertion-ordered association
  lists with dict update semantics (replace in place, else append).
* Python sets that the code iterates are modelled as duplicate-free lists in
  first-insertion order; set equality is mutual membership.
* Python exceptions surface as `Option.none` (or a dedicated `crash` result).
* Unbounded `while` loops take an explicit fuel argument chosen large enough
  that the fuel-exhausted branch is unreachable on the inputs of interest.
-/

set_option maxRecDepth 100000

namespace IBR

/-- Grammar symbols are plain strings, as in the Python source. -/
abbrev Sym := String

/-- A production right-hand side: an ordered list of symbols. -/
abbrev Production := List Sym

/-- A grammar: insertion-ordered mapping nonterminal -> ordered productions,
mirroring the Python dict `gramatica` (`gramatica_util.py`). -/
abbrev Grammar := List (Sym × List Production)

/-- Empty-production marker (`gramatica_util.EPS`). -/
def EPS : Sym := "ε"

/-- End-of-input marker (`gramatica_util.ENDMARK`). -/
def ENDMARK : Sym := "$"

/-- The synthetic start symbol of the augmented grammar; the apostrophe is
spelled via its character code. -/
def sPrime : Sym := "S" ++ (Char.ofNat 39).toString

/-- The fixed language grammar (`gramatica_util.gramatica`), transcribed with
its declaration order preserved. -/
def gramatica : Grammar :=
  [ ("PROGRAMA",
      [["LISTA_DE_COMANDOS"]]),
    ("LISTA_DE_COMANDOS",
      [["COMANDO", "LISTA_DE_COMANDOS"],
       ["COMANDO"]]),
    ("COMANDO",
      [["DECLARACAO"],
       ["ENTRADA"],
       ["SAIDA"],
       ["DECISAO"],
       ["LACO_CONTADO"],
       ["LACO_DE_REPETICAO"],
       ["ATRIBUICAO"],
       ["COMENTARIO"]]),
    ("DECLARACAO",
      [["TIPO_DE_VARIAVEL", "id", ";"],
       ["TIPO_DE_VARIAVEL", "id", "ATRIBUICAO", ";"]]),
    ("ATRIBUICAO",
      [["=", "TERMO"],
       ["=", "EXPRESSAO"],
       ["TERMO", "=", "EXPRESSAO", ";"]]),
    ("EXPRESSAO",
      [["EXPRESSAO", "OPERADOR", "TERMO"],
       ["TERMO"]]),
    ("OPERADOR",
      [["OPERADOR_ARITMETICO"],
       ["OPERADOR_RELACIONAL"],
       ["OPERADOR_LOGICO"]]),
    ("ENTRADA",
      [["batapim", "id", ";"]]),
    ("SAIDA",
      [["chimpanzini", "EXPRESSAO", ";"]]),
    ("DECISAO",
      [["lirili", "EXPRESSAO", "BLOCO"],
       ["lirili", "EXPRESSAO", "BLOCO", "larila", "BLOCO"],
       ["lirili", "EXPRESSAO", "BLOCO", "larila", "DECISAO"]]),
    ("LACO_CONTADO",
      [["dunmadin", "(", "DECLARACAO", ";", "EXPRESSAO", ";", "EXPRESSAO", ")", "BLOCO"]]),
    ("LACO_DE_REPETICAO",
      [["tung", "EXPRESSAO", "BLOCO"]]),
    ("BLOCO",
      [["BLOCO_DECISAO"],
       ["BLOCO_REPETICAO"]]),
    ("BLOCO_REPETICAO",
      [["sahur", "LISTA_DE_COMANDOS", "sahur"]]),
    ("BLOCO_DECISAO",
      [["delimitare", "LISTA_DE_COMANDOS", "finitini"]]),
    ("COMENTARIO",
      [["saturnita", "TERMO"]]),
    ("TIPO_DE_VARIAVEL",
      [["tralalero"], ["tralala"], ["porcodio"], ["porcoala"]]),
    ("OPERADOR_ARITMETICO",
      [["+"], ["-"], ["*"], ["/"], ["%"]]),
    ("OPERADOR_RELACIONAL",
      [["=="], ["!="], [">"], ["<"], ["<="], [">="]]),
    ("OPERADOR_LOGICO",
      [["&&"], ["||"]]),
    ("TERMO",
      [["id"], ["valor_inteiro"], ["valor_real"], ["VALOR_BOOL"],
       ["caractere"], ["string"]]),
    ("VALOR_BOOL",
      [["tripi"], ["tropa"]]) ]

/-- `gramatica_util.ALL_NONTERMINALS`: the key set of `gramatica`. -/
def ALL_NONTERMINALS : List Sym := gramatica.map Prod.fst

/-- `gramatica_util.ALL_TERMINALS`: every right-hand-side symbol that is not a
nonterminal and not the empty marker (built as a Python set; here a
duplicate-free list). -/
def ALL_TERMINALS : List Sym :=
  ((gramatica.map Prod.snd).flatten.flatten.filter
    (fun sym => decide (sym ∉ ALL_NONTERMINALS) && decide (sym ≠ EPS))).dedup

/-- Lexicographic comparison of character lists by code point, the order
Python `sorted` uses on strings. -/
def listCharLe : List Char → List Char → Bool
  | [], _ => true
  | _ :: _, [] => false
  | a :: as, b :: bs =>
    if a.toNat < b.toNat then true
    else if a.toNat = b.toNat then listCharLe as bs
    else false

/-- String comparison via the character lists. -/
def strLe (a b : Sym) : Bool := listCharLe a.data b.data

/-- Insert a string into a sorted list, keeping it sorted (helper for the
`sorted(ALL_TERMINALS)` iterations of `slr_util.py`). -/
def insSorted (x : Sym) : List Sym → List Sym
  | [] => [x]
  | y :: ys => if strLe x y then x :: y :: ys else y :: insSorted x ys

/-- Sort a list of strings, mirroring Python `sorted`. -/
def sortStrings (l : List Sym) : List Sym := l.foldr insSorted []

/-- `sorted(ALL_TERMINALS)` as used by `build_slr_table`. -/
def sortedTerminals : List Sym := sortStrings ALL_TERMINALS

/-- Keys of a dict modelled as an association list. -/
def dictKeys (d : Grammar) : List Sym := d.map Prod.fst

/-- Python dict assignment `d[k] = v`: replace the value in place when the key
exists, otherwise append the new entry. -/
def dictInsert (d : Grammar) (k : Sym) (v : List Production) : Grammar :=
  if k ∈ dictKeys d then
    d.map (fun kv => if kv.1 = k then (k, v) else kv)
  else
    d ++ [(k, v)]

/-- Python `d.update(src)`: fold dict assignment over the entries of `src`. -/
def dictUpdate (d src : Grammar) : Grammar :=
  src.foldl (fun acc kv => dictInsert acc kv.1 kv.2) d

/-- `slr_util.augment_grammar`: prepend the synthetic production
`synthetic-start -> first declared nonterminal` via dict update. Returns
`none` on the empty grammar, where the Python code raises `IndexError` at
`list(grammar.keys())[0]`. -/
def augment_grammar (g : Grammar) : Option Grammar :=
  match g with
  | [] => none
  | (start_symbol, _) :: _ => some (dictUpdate [(sPrime, [[start_symbol]])] g)

theorem dictUpdate_of_disjoint :
    ∀ (g d : Grammar), (∀ k ∈ dictKeys g, k ∉ dictKeys d) →
      (dictKeys g).Nodup → dictUpdate d g = d ++ g := by
  intro g
  induction g with
  | nil => intro d _ _; simp [dictUpdate]
  | cons kv rest ih =>
    intro d hdisj hnodup
    obtain ⟨k, v⟩ := kv
    have hkeys : dictKeys ((k, v) :: rest) = k :: dictKeys rest := rfl
    rw [hkeys] at hdisj hnodup
    have hk : k ∉ dictKeys d := hdisj k (List.mem_cons_self _ _)
    have hstep : dictUpdate d ((k, v) :: rest) = dictUpdate (d ++ [(k, v)]) rest := by
      simp only [dictUpdate, List.foldl_cons, dictInsert, if_neg hk]
    have hkeysApp : dictKeys (d ++ [(k, v)]) = dictKeys d ++ [k] := by
      simp [dictKeys]
    have hdis2 : ∀ k' ∈ dictKeys rest, k' ∉ dictKeys (d ++ [(k, v)]) := by
      intro k' hk'
      rw [hkeysApp]
      intro hcon
      rcases List.mem_append.mp hcon with h | h
      · exact hdisj k' (List.mem_cons_of_mem _ hk') h
      · have hkk : k' = k := by simpa using h
        subst hkk
        exact (List.nodup_cons.mp hnodup).1 hk'
    rw [hstep, ih (d ++ [(k, v)]) hdis2 (List.nodup_cons.mp hnodup).2]
    simp

/-- C9 counterexample: on a grammar that already contains the key of the
synthetic start symbol, `augment_grammar` does not return the synthetic
production followed by the original entries; the dict update overwrites the
synthetic entry instead. -/
theorem augment_grammar_claim_counterexample :
    augment_grammar [(sPrime, [["id"]])] ≠
        some ((sPrime, [[sPrime]]) :: [(sPrime, [["id"]])]) ∧
      augment_grammar [(sPrime, [["id"]])] = some [(sPrime, [["id"]])] := by
  constructor
  · decide
  · rfl

/-- C9 (amended): for every non-empty grammar with duplicate-free keys that
does not already contain the synthetic start symbol, `augment_grammar` returns
the synthetic entry `synthetic-start -> [first declared nonterminal]` followed
by all original entries in order (the argument itself is untouched in this
purely functional rendering). -/
theorem augment_grammar_prepends_synthetic_start
    (k₀ : Sym) (v₀ : List Production) (rest : Grammar)
    (hnodup : (dictKeys ((k₀, v₀) :: rest)).Nodup)
    (hs : sPrime ∉ dictKeys ((k₀, v₀) :: rest)) :
    augment_grammar ((k₀, v₀) :: rest) =
      some ((sPrime, [[k₀]]) :: (k₀, v₀) :: rest) := by
  show some (dictUpdate [(sPrime, [[k₀]])] ((k₀, v₀) :: rest)) = _
  have hdis : ∀ k ∈ dictKeys ((k₀, v₀) :: rest), k ∉ dictKeys [(sPrime, [[k₀]])] := by
    intro k hk hcon
    have hksp : k = sPrime := by simpa [dictKeys] using hcon
    subst hksp
    exact hs hk
  rw [dictUpdate_of_disjoint _ _ hdis hnodup]
  rfl

/-- C9 witness: the amended statement applied to the grammar with the single
entry `PROGRAMA -> [["LISTA_DE_COMANDOS"]]`. -/
theorem augment_grammar_prepends_witness :
    augment_grammar [("PROGRAMA", [["LISTA_DE_COMANDOS"]])] =
      some [(sPrime, [["PROGRAMA"]]), ("PROGRAMA", [["LISTA_DE_COMANDOS"]])] :=
  augment_grammar_prepends_synthetic_start "PROGRAMA" [["LISTA_DE_COMANDOS"]] []
    (by decide) (by decide)

/-- Python `set.add`: append the element unless already present (sets are
modelled as duplicate-free lists in first-insertion order). -/
def insertSet (s : List Sym) (x : Sym) : List Sym := if x ∈ s then s else s ++ [x]

/-- Python `set.update`: fold `insertSet` over the added elements. -/
def unionSet (s t : List Sym) : List Sym := t.foldl insertSet s

/-- The body of `ff_util.compute_first`: naive unmemoized recursion over the
leading symbol of each production, exactly as in the source, including the
hard-coded skip of the (left-recursive) nonterminal EXPRESSAO. `fuel` bounds
the recursion (Python has a finite call stack); every recursive call — the
step to the next production and the nested FIRST of a leading nonterminal —
consumes one unit. `none` models a raised exception or exhausted recursion. -/
def computeFirstAux (g : Grammar) : Nat → List Production → List Sym → Option (List Sym)
  | 0, _, _ => none
  | _ + 1, [], acc => some acc
  | fuel + 1, prod :: rest, acc =>
    match prod.head? with
    | none => none
    | some h =>
      if h ∈ ALL_TERMINALS then computeFirstAux g fuel rest (insertSet acc h)
      else if h = EPS then computeFirstAux g fuel rest (insertSet acc EPS)
      else if h = "EXPRESSAO" then computeFirstAux g fuel rest acc
      else if h ∈ ALL_NONTERMINALS then
        match List.lookup h g with
        | none => none
        | some ps =>
          match computeFirstAux g fuel ps [] with
          | none => none
          | some s => computeFirstAux g fuel rest (unionSet acc s)
      else computeFirstAux g fuel rest acc

/-- `ff_util.compute_first`, starting from an empty result set. -/
def compute_first (fuel : Nat) (prod_list : List Production) (g : Grammar) :
    Option (List Sym) :=
  computeFirstAux g fuel prod_list []

/-- A directly recursive grammar: PROGRAMA -> PROGRAMA. -/
def recGrammar : Grammar := [("PROGRAMA", [["PROGRAMA"]])]

/-- C4: compute_first is not total. On the directly recursive grammar
`PROGRAMA -> PROGRAMA` the naive recursion never returns, whatever recursion
budget it is given (in Python: `RecursionError`); it is not the memoized
fixed-point computation the specification requires. -/
theorem compute_first_diverges_on_recursive_grammar :
    ∀ fuel : Nat, compute_first fuel [["PROGRAMA"]] recGrammar = none := by
  have key : ∀ fuel acc, computeFirstAux recGrammar fuel [["PROGRAMA"]] acc = none := by
    intro fuel
    induction fuel with
    | zero => intro acc; rfl
    | succ n ih =>
      intro acc
      have hstep : computeFirstAux recGrammar (n + 1) [["PROGRAMA"]] acc =
          (match computeFirstAux recGrammar n [["PROGRAMA"]] [] with
           | none => none
           | some s => computeFirstAux recGrammar n [] (unionSet acc s)) := rfl
      rw [hstep, ih]
  intro fuel
  exact key fuel []

/-- `ff_util.compute_follow`, functional rendering of the in-place set
mutation: the Python code mutates only `follow_sets[key]` while scanning, and
its reads of `follow_sets[A]` for `A == key` union the growing set with (a
subset of) itself, a no-op; so folding the contributions over all production
positions, reading the other sets from the original map, is observably the
same computation. `none` models a `KeyError` on a missing dictionary key. -/
def compute_follow (key : Sym) (g : Grammar)
    (first_sets follow_sets : List (Sym × List Sym)) : Option (List Sym) :=
  match List.lookup key follow_sets with
  | none => none
  | some start =>
    g.foldlM (fun follow kv =>
      kv.2.foldlM (fun follow production =>
        production.enum.foldlM (fun follow iB =>
          if iB.2 = key then
            if iB.1 + 1 < production.length then
              match production.get? (iB.1 + 1) with
              | none => none
              | some beta =>
                if beta ∈ ALL_TERMINALS then some (insertSet follow beta)
                else if beta ∈ ALL_NONTERMINALS then
                  match List.lookup beta first_sets with
                  | none => none
                  | some fb =>
                    let follow1 := unionSet follow (fb.filter (· ≠ EPS))
                    if EPS ∈ fb then
                      match List.lookup kv.1 follow_sets with
                      | none => none
                      | some fA => some (unionSet follow1 fA)
                    else some follow1
                else some follow
            else
              if kv.1 ≠ key then
                match List.lookup kv.1 follow_sets with
                | none => none
                | some fA => some (unionSet follow fA)
              else some follow
          else some follow) follow) follow) start

/-- Replace the value of an existing key in a follow map. -/
def setFollow (m : List (Sym × List Sym)) (k : Sym) (v : List Sym) :
    List (Sym × List Sym) :=
  m.map (fun kv => if kv.1 = k then (k, v) else kv)

/-- `ff_util.compute_first_follow` (computation path; reading and writing the
CSV cache is a persistence concern outside this model): FIRST of every
nonterminal by `compute_first`, then a single key-ordered pass that seeds the
first declared nonterminal with the end marker and computes every other
FOLLOW set once with `compute_follow`. Returns the combined
nonterminal -> (first, follow) map in key order. -/
def compute_first_follow (fuel : Nat) (g : Grammar) :
    Option (List (Sym × (List Sym × List Sym))) :=
  match g.foldlM
      (fun acc kv => (compute_first fuel kv.2 g).map (fun s => acc ++ [(kv.1, s)]))
      ([] : List (Sym × List Sym)) with
  | none => none
  | some first =>
    let firstKey : Sym := match g with | [] => "" | kv :: _ => kv.1
    let follow0 : List (Sym × List Sym) := g.map (fun kv => (kv.1, []))
    match g.foldlM (fun follow kv =>
        if kv.1 = firstKey then
          some (setFollow follow kv.1
            (insertSet ((List.lookup kv.1 follow).getD []) ENDMARK))
        else
          match compute_follow kv.1 g first follow with
          | none => none
          | some f => some (setFollow follow kv.1 f)) follow0 with
    | none => none
    | some follow =>
      some (g.map (fun kv =>
        (kv.1, ((List.lookup kv.1 first).getD [], (List.lookup kv.1 follow).getD []))))

/-- A grammar (over the shipped symbol vocabulary) whose FOLLOW sets are
mutually dependent against the key order: FOLLOW(COMANDO) needs
FOLLOW(BLOCO), but BLOCO is processed after COMANDO. -/
def followGapGrammar : Grammar :=
  [ ("PROGRAMA", [["id", "BLOCO"]]),
    ("COMANDO", [["batapim"]]),
    ("BLOCO", [["tung", "COMANDO"]]) ]

/-- C5: the FOLLOW sets returned by compute_first_follow are not a fixed point
of the follow pass. On `followGapGrammar` the returned FOLLOW(COMANDO) is
empty, yet applying compute_follow once more over all productions with the
returned sets yields the end marker: the single key-ordered pass never
revisits earlier sets. -/
theorem compute_follow_single_pass_not_fixed :
    compute_first_follow 50 followGapGrammar =
        some [("PROGRAMA", (["id"], [ENDMARK])),
              ("COMANDO", (["batapim"], [])),
              ("BLOCO", (["tung"], [ENDMARK]))] ∧
      compute_follow "COMANDO" followGapGrammar
          [("PROGRAMA", ["id"]), ("COMANDO", ["batapim"]), ("BLOCO", ["tung"])]
          [("PROGRAMA", [ENDMARK]), ("COMANDO", []), ("BLOCO", [ENDMARK])]
        = some [ENDMARK] ∧
      ([ENDMARK] : List Sym) ≠ [] := by
  refine ⟨by decide, by decide, by decide⟩

/-- An LR(0) item `(lhs, symbols-before-dot, symbols-after-dot)`
(`slr_util.py`). -/
abbrev Item := Sym × List Sym × List Sym

/-- Item sets are duplicate-free lists in insertion order (Python sets). -/
abbrev ItemSet := List Item

/-- Set equality of item sets: mutual membership (Python frozenset equality,
used by the `state_map` lookups). -/
def eqAsSet (a b : ItemSet) : Bool :=
  a.all (fun x => decide (x ∈ b)) && b.all (fun x => decide (x ∈ a))

/-- Add the dot-at-start item of one production of `b` unless it is already in
the closure set or among the newly found items. -/
def closureAddProd (s : ItemSet) (b : Sym) (new : List Item) (p : Production) :
    List Item :=
  if (b, ([] : List Sym), p) ∈ s ∨ (b, ([] : List Sym), p) ∈ new then new
  else new ++ [(b, ([] : List Sym), p)]

/-- Scan one item of the closure set: when a nonterminal of the grammar stands
right after the dot, add the dot-at-start items of all its productions. -/
def closureScanItem (g : Grammar) (s : ItemSet) (new : List Item) (it : Item) :
    List Item :=
  match it.2.2 with
  | [] => new
  | b :: _ =>
    if b ∈ ALL_NONTERMINALS then
      match List.lookup b g with
      | some prods => prods.foldl (closureAddProd s b) new
      | none => new
    else new

/-- One scan of the closure while-loop (`slr_util.closure`): the items
`B -> • production` for each nonterminal B immediately after a dot, for every
production of B not already in the set, collected without duplicates in scan
order (Python gathers them into the set `new_items`). -/
def closureNew (g : Grammar) (s : ItemSet) : List Item :=
  s.foldl (closureScanItem g s) []

/-- The dot-at-start items of every production: the only items the closure
loop can ever add. -/
def starters (g : Grammar) : List Item :=
  (g.map (fun kv => kv.2.map (fun p => (kv.1, ([] : List Sym), p)))).flatten

/-- The closure while-loop with explicit fuel. -/
def closureAux (g : Grammar) : Nat → ItemSet → ItemSet
  | 0, s => s
  | fuel + 1, s =>
    let new := closureNew g s
    if new.isEmpty then s else closureAux g fuel (s ++ new)

/-- `slr_util.closure`: iterate scans until nothing is added. Each productive
scan adds at least one starter item, so `|starters| + 1` rounds of fuel always
reach the fixed point. -/
def closure (g : Grammar) (s : ItemSet) : ItemSet :=
  closureAux g ((starters g).length + 1) s

/-- The dot-advanced items of `goto` before closing: every item with `symbol`
right after the dot, the dot moved one position right, de-duplicated in scan
order. -/
def gotoMoved (items : ItemSet) (symbol : Sym) : ItemSet :=
  items.foldl (fun acc it =>
    match it with
    | (lhs, before, b :: after) =>
      if b = symbol then
        if (lhs, before ++ [b], after) ∈ acc then acc
        else acc ++ [(lhs, before ++ [b], after)]
      else acc
    | _ => acc) []

/-- `slr_util.goto`: advance the dot past `symbol` in every item that allows
it, then close; the empty set when no item matched. -/
def goto (g : Grammar) (items : ItemSet) (symbol : Sym) : ItemSet :=
  if (gotoMoved items symbol).isEmpty then []
  else closure g (gotoMoved items symbol)

/-- The symbols appearing immediately after a dot in some item of the state
(a Python set; modelled in first-seen order). -/
def allSymbolsOf (items : ItemSet) : List Sym :=
  items.foldl (fun acc it =>
    match it.2.2 with
    | [] => acc
    | b :: _ => if b ∈ acc then acc else acc ++ [b]) []

/-- One symbol step of the worklist loop of `compute_lr0_states`: compute the
goto set; when it is non-empty, reuse the id of a set-equal known state or
assign the next integer id, and record the transition. The `findIdx?` search
models the `state_map` frozenset lookup. -/
def lr0Step (g : Grammar) (current : ItemSet) (i : Nat)
    (acc : List ItemSet × List ((Nat × Sym) × Nat)) (symbol : Sym) :
    List ItemSet × List ((Nat × Sym) × Nat) :=
  let next := goto g current symbol
  if next.isEmpty then acc
  else
    match acc.1.findIdx? (fun s => eqAsSet s next) with
    | some j => (acc.1, acc.2 ++ [((i, symbol), j)])
    | none => (acc.1 ++ [next], acc.2 ++ [((i, symbol), acc.1.length)])

/-- The worklist loop (`while i < len(states)`) with explicit fuel. -/
def lr0Aux (g : Grammar) :
    Nat → List ItemSet → List ((Nat × Sym) × Nat) → Nat →
      List ItemSet × List ((Nat × Sym) × Nat)
  | 0, states, transitions, _ => (states, transitions)
  | fuel + 1, states, transitions, i =>
    match states.get? i with
    | none => (states, transitions)
    | some current =>
      let step := (allSymbolsOf current).foldl (lr0Step g current i) (states, transitions)
      lr0Aux g fuel step.1 step.2 (i + 1)

/-- Every dotted item over the grammar's productions, used only to size the
worklist fuel. -/
def allItems (g : Grammar) : List Item :=
  (g.map (fun kv => kv.2.map (fun p =>
    (List.range (p.length + 1)).map (fun d => (kv.1, p.take d, p.drop d))))).flatten.flatten

/-- Fuel for the worklist: more than the largest possible number of pairwise
non-set-equal states. -/
def lr0Fuel (g : Grammar) : Nat := 2 ^ ((allItems g).length + 2) + 1

/-- `slr_util.compute_lr0_states`: worklist construction from state 0 =
closure of the start item `synthetic-start -> • second-declared-key`.
Returns `none` when the (augmented) grammar has fewer than two keys, where
the Python code raises IndexError at `list(grammar.keys())[1]`. -/
def compute_lr0_states (g : Grammar) :
    Option (List ItemSet × List ((Nat × Sym) × Nat)) :=
  match g with
  | _ :: (k1, _) :: _ =>
    let initial := closure g [(sPrime, [], [k1])]
    some (lr0Aux g (lr0Fuel g) [initial] [] 0)
  | _ => none

theorem mem_starters_of_lookup {g : Grammar} {b : Sym} {ps : List Production}
    (h : List.lookup b g = some ps) {p : Production} (hp : p ∈ ps) :
    (b, ([] : List Sym), p) ∈ starters g := by
  induction g with
  | nil => simp [List.lookup] at h
  | cons kv rest ih =>
    obtain ⟨k, v⟩ := kv
    by_cases hbk : b = k
    · subst hbk
      have hv : v = ps := by simpa [List.lookup] using h
      subst hv
      simp only [starters, List.map_cons, List.flatten_cons, List.mem_append]
      exact Or.inl (List.mem_map_of_mem _ hp)
    · have hbeq : (b == k) = false := by simpa using hbk
      have h' : List.lookup b rest = some ps := by
        simpa [List.lookup, hbeq] using h
      have hr := ih h'
      simp only [starters, List.map_cons, List.flatten_cons, List.mem_append]
      exact Or.inr (by simpa [starters] using hr)

theorem foldl_pres_mem {α β : Type} (P : β → Prop) :
    ∀ (l : List α) (f : β → α → β),
      (∀ b, P b → ∀ a ∈ l, P (f b a)) → ∀ b, P b → P (l.foldl f b) := by
  intro l
  induction l with
  | nil => intro f _ b hb; exact hb
  | cons a t ih =>
    intro f hf b hb
    exact ih f (fun b hb a ha => hf b hb a (List.mem_cons_of_mem _ ha)) (f b a)
      (hf b hb a (List.mem_cons_self a t))

theorem mem_closureNew {g : Grammar} {s : ItemSet} :
    ∀ x ∈ closureNew g s, x ∈ starters g ∧ x ∉ s := by
  unfold closureNew
  refine foldl_pres_mem (fun acc => ∀ x ∈ acc, x ∈ starters g ∧ x ∉ s)
    s (closureScanItem g s) ?_ [] (fun x hx => absurd hx (List.not_mem_nil x))
  intro acc hacc it _
  unfold closureScanItem
  cases h22 : it.2.2 with
  | nil => exact hacc
  | cons b tl =>
    dsimp only
    by_cases hb : b ∈ ALL_NONTERMINALS
    · rw [if_pos hb]
      cases hlk : List.lookup b g with
      | none => exact hacc
      | some prods =>
        refine foldl_pres_mem (fun acc => ∀ x ∈ acc, x ∈ starters g ∧ x ∉ s)
          prods (closureAddProd s b) ?_ acc hacc
        intro acc2 hacc2 p hp
        unfold closureAddProd
        by_cases hc : (b, ([] : List Sym), p) ∈ s ∨ (b, ([] : List Sym), p) ∈ acc2
        · rw [if_pos hc]; exact hacc2
        · rw [if_neg hc]
          intro x hx
          rcases List.mem_append.mp hx with h | h
          · exact hacc2 x h
          · have hxe : x = (b, ([] : List Sym), p) := by simpa using h
            subst hxe
            exact ⟨mem_starters_of_lookup hlk hp, fun hxs => hc (Or.inl hxs)⟩
    · rw [if_neg hb]; exact hacc

/-- The starter items not yet absorbed: the decreasing measure of the closure
loop. -/
def remaining (g : Grammar) (s : ItemSet) : Nat :=
  (starters g).countP (fun x => decide (x ∉ s))

theorem countP_lt_of_witness {α : Type} (l : List α) (p q : α → Bool)
    (hpq : ∀ a ∈ l, q a = true → p a = true) (x : α) (hx : x ∈ l)
    (hpx : p x = true) (hqx : q x = false) : l.countP q < l.countP p := by
  induction l with
  | nil => cases hx
  | cons a t ih =>
    rw [List.countP_cons, List.countP_cons]
    rcases List.mem_cons.mp hx with rfl | hxt
    · have hle : t.countP q ≤ t.countP p :=
        List.countP_mono_left (fun a ha => hpq a (List.mem_cons_of_mem _ ha))
      simp [hpx, hqx]
      omega
    · have hlt := ih (fun a ha => hpq a (List.mem_cons_of_mem _ ha)) hxt
      have hqa := hpq a (List.mem_cons_self a t)
      cases hq : q a <;> cases hp : p a <;> simp [hq, hp] at hqa ⊢ <;> omega

theorem closureNew_closureAux_eq_nil (g : Grammar) :
    ∀ (fuel : Nat) (s : ItemSet), remaining g s < fuel →
      closureNew g (closureAux g fuel s) = [] := by
  intro fuel
  induction fuel with
  | zero => intro s h; omega
  | succ n ih =>
    intro s h
    by_cases hnew : (closureNew g s).isEmpty
    · have hres : closureAux g (n + 1) s = s := by simp [closureAux, hnew]
      rw [hres]
      exact List.isEmpty_iff.mp hnew
    · have hstep : closureAux g (n + 1) s = closureAux g n (s ++ closureNew g s) := by
        simp [closureAux, hnew]
      rw [hstep]
      apply ih
      obtain ⟨x, hx⟩ : ∃ x, x ∈ closureNew g s := by
        cases hcn : closureNew g s with
        | nil => rw [hcn] at hnew; simp at hnew
        | cons a t => exact ⟨a, List.mem_cons_self a t⟩
      have hxs := mem_closureNew x hx
      have hdec : remaining g (s ++ closureNew g s) < remaining g s := by
        refine countP_lt_of_witness _ _ _ ?_ x hxs.1 ?_ ?_
        · intro a _ hqa
          simp only [decide_eq_true_eq] at hqa ⊢
          intro has
          exact hqa (List.mem_append.mpr (Or.inl has))
        · simpa using hxs.2
        · simp [List.mem_append, hx]
      omega

theorem closureNew_closure (g : Grammar) (s : ItemSet) :
    closureNew g (closure g s) = [] := by
  apply closureNew_closureAux_eq_nil
  exact lt_of_le_of_lt (List.countP_le_length _) (Nat.lt_succ_self _)

/-- Closure is idempotent: a second application adds nothing. -/
theorem closure_idem (g : Grammar) (s : ItemSet) :
    closure g (closure g s) = closure g s := by
  show closureAux g ((starters g).length + 1) (closure g s) = closure g s
  simp [closureAux, closureNew_closure]

theorem prefix_closureAux (g : Grammar) :
    ∀ (fuel : Nat) (s : ItemSet), s <+: closureAux g fuel s := by
  intro fuel
  induction fuel with
  | zero => intro s; exact List.prefix_refl s
  | succ n ih =>
    intro s
    by_cases hnew : (closureNew g s).isEmpty
    · simp [closureAux, hnew]
    · have hstep : closureAux g (n + 1) s = closureAux g n (s ++ closureNew g s) := by
        simp [closureAux, hnew]
      rw [hstep]
      exact (List.prefix_append s (closureNew g s)).trans (ih _)

theorem closure_ne_nil (g : Grammar) {s : ItemSet} (h : s ≠ []) :
    closure g s ≠ [] := by
  intro hc
  have hp := prefix_closureAux g ((starters g).length + 1) s
  rw [show closureAux g ((starters g).length + 1) s = closure g s from rfl, hc] at hp
  exact h (List.prefix_nil.mp hp)

theorem goto_shape (g : Grammar) (items : ItemSet) (symbol : Sym) :
    goto g items symbol = [] ∨
      ∃ t, t ≠ [] ∧ goto g items symbol = closure g t := by
  unfold goto
  by_cases h : (gotoMoved items symbol).isEmpty
  · rw [if_pos h]; exact Or.inl rfl
  · rw [if_neg h]
    exact Or.inr ⟨gotoMoved items symbol,
      fun hc => h (by rw [hc]; rfl), rfl⟩

theorem findIdx?_none_all {α : Type} (p : α → Bool) :
    ∀ (l : List α), l.findIdx? p = none → ∀ x ∈ l, p x = false := by
  intro l
  induction l with
  | nil => intro _ x hx; cases hx
  | cons a t ih =>
    intro h x hx
    rw [List.findIdx?_cons] at h
    by_cases hpa : p a
    · simp [hpa] at h
    · rcases List.mem_cons.mp hx with rfl | hxt
      · simpa using hpa
      · refine ih ?_ x hxt
        simp [hpa] at h
        simpa using h

/-- The distinguishing invariant of the worklist: every recorded state is
closure-closed and non-empty, and the states are pairwise not set-equal. -/
def GoodStates (g : Grammar) (states : List ItemSet) : Prop :=
  (∀ s ∈ states, closure g s = s ∧ s ≠ []) ∧
    states.Pairwise (fun a b => eqAsSet a b = false)

theorem goodStates_lr0Step (g : Grammar) (current : ItemSet) (i : Nat)
    (acc : List ItemSet × List ((Nat × Sym) × Nat)) (hacc : GoodStates g acc.1)
    (symbol : Sym) : GoodStates g (lr0Step g current i acc symbol).1 := by
  unfold lr0Step
  by_cases hne : (goto g current symbol).isEmpty
  · rw [if_pos hne]; exact hacc
  · rw [if_neg hne]
    cases hfind : acc.1.findIdx? (fun s => eqAsSet s (goto g current symbol)) with
    | some j => exact hacc
    | none =>
      constructor
      · intro s hs
        rcases List.mem_append.mp hs with h | h
        · exact hacc.1 s h
        · have hsn : s = goto g current symbol := by simpa using h
          subst hsn
          rcases goto_shape g current symbol with hnil | ⟨t, ht, heq⟩
          · rw [hnil] at hne; simp at hne
          · rw [heq]; exact ⟨closure_idem g t, heq ▸ closure_ne_nil g ht⟩
      · rw [List.pairwise_append]
        refine ⟨hacc.2, List.pairwise_singleton _ _, ?_⟩
        intro a ha b hb
        have hb' : b = goto g current symbol := by simpa using hb
        subst hb'
        exact findIdx?_none_all _ acc.1 hfind a ha

theorem goodStates_foldl (g : Grammar) (current : ItemSet) (i : Nat)
    (syms : List Sym) (acc : List ItemSet × List ((Nat × Sym) × Nat))
    (hacc : GoodStates g acc.1) :
    GoodStates g ((syms.foldl (lr0Step g current i) acc).1) :=
  foldl_pres_mem (fun acc => GoodStates g acc.1) syms (lr0Step g current i)
    (fun b hb a _ => goodStates_lr0Step g current i b hb a) acc hacc

theorem goodStates_lr0Aux (g : Grammar) :
    ∀ (fuel : Nat) (states : List ItemSet)
      (transitions : List ((Nat × Sym) × Nat)) (i : Nat),
      GoodStates g states → GoodStates g (lr0Aux g fuel states transitions i).1 := by
  intro fuel
  induction fuel with
  | zero => intro s t i h; exact h
  | succ n ih =>
    intro states transitions i h
    have hrw : lr0Aux g (n + 1) states transitions i =
        match states.get? i with
        | none => (states, transitions)
        | some current =>
          lr0Aux g n
            ((allSymbolsOf current).foldl (lr0Step g current i) (states, transitions)).1
            ((allSymbolsOf current).foldl (lr0Step g current i) (states, transitions)).2
            (i + 1) := rfl
    rw [hrw]
    cases hg : states.get? i with
    | none => exact h
    | some current => exact ih _ _ _ (goodStates_foldl g current i _ _ h)

/-- C8: every state produced by compute_lr0_states is closure-closed (closure
returns the very same item set) and non-empty, and distinct integer ids name
pairwise non-set-equal item sets: a goto result receives a fresh id only when
it is non-empty and set-equal to no previously discovered state. -/
theorem lr0_states_closed_and_unique (g : Grammar) (sts : List ItemSet)
    (tr : List ((Nat × Sym) × Nat)) (h : compute_lr0_states g = some (sts, tr)) :
    (∀ s ∈ sts, closure g s = s ∧ s ≠ []) ∧
      sts.Pairwise (fun a b => eqAsSet a b = false) := by
  rcases g with _ | ⟨k0, g'⟩
  · simp [compute_lr0_states] at h
  rcases g' with _ | ⟨kv1, rest⟩
  · simp [compute_lr0_states] at h
  obtain ⟨k1, v1⟩ := kv1
  have h' : lr0Aux (k0 :: (k1, v1) :: rest) (lr0Fuel (k0 :: (k1, v1) :: rest))
      [closure (k0 :: (k1, v1) :: rest) [(sPrime, [], [k1])]] [] 0 = (sts, tr) := by
    simpa [compute_lr0_states] using h
  have hinit : GoodStates (k0 :: (k1, v1) :: rest)
      [closure (k0 :: (k1, v1) :: rest) [(sPrime, [], [k1])]] := by
    constructor
    · intro s hs
      have hse : s = closure (k0 :: (k1, v1) :: rest) [(sPrime, [], [k1])] := by
        simpa using hs
      subst hse
      exact ⟨closure_idem _ _, closure_ne_nil _ (by simp)⟩
    · exact List.pairwise_singleton _ _
  have := goodStates_lr0Aux (k0 :: (k1, v1) :: rest) (lr0Fuel (k0 :: (k1, v1) :: rest))
    [closure (k0 :: (k1, v1) :: rest) [(sPrime, [], [k1])]] [] 0 hinit
  rw [h'] at this
  exact this

/-- The head character of a string (for Python's single-character
`value.startswith(c)` checks), via the character list. -/
def strHead (s : String) : Option Char := s.data.head?

/-- An action-table row: column -> cell in write order (a Python dict). -/
abbrev Row := List (Sym × String)

/-- A goto-table row: nonterminal -> target state in write order. -/
abbrev GRow := List (Sym × Nat)

/-- Python `row[k] = v` on a dict row: replace in place or append. -/
def rowSetG {V : Type} (row : List (Sym × V)) (k : Sym) (v : V) :
    List (Sym × V) :=
  if row.any (fun kv => kv.1 == k) then
    row.map (fun kv => if kv.1 == k then (k, v) else kv)
  else row ++ [(k, v)]

/-- The reduce numbering of `build_slr_table`: productions of every key other
than the synthetic start, flattened in declaration order. -/
def productionsOf (g : Grammar) : List (Sym × Production) :=
  ((g.filter (fun kv => kv.1 != sPrime)).map
    (fun kv => kv.2.map (fun p => (kv.1, p)))).flatten

/-- Process one item of a state in the per-item pass of `build_slr_table`:
Shift for a terminal after the dot having a recorded transition; Reduce over
every terminal-or-endmark symbol of FOLLOW(lhs) for a complete item of an
ordinary nonterminal (production number found by position; a production not
found, or an lhs missing from the first/follow map, writes nothing — the
caught ValueError and the guarded lookup); Accept at the end marker for the
completed synthetic-start item. Every write is an unconditional dict
assignment. -/
def slrItemPass (productions : List (Sym × Production))
    (transitions : List ((Nat × Sym) × Nat))
    (ff : List (Sym × (List Sym × List Sym))) (state_num : Nat)
    (row : Row) (item : Item) : Row :=
  match item with
  | (_, _, t :: _) =>
    if t ∈ ALL_TERMINALS then
      match List.lookup (state_num, t) transitions with
      | some next => rowSetG row t ("s" ++ toString next)
      | none => row
    else row
  | (lhs, before, []) =>
    if lhs ≠ sPrime then
      match productions.findIdx? (fun pr => pr == (lhs, before)) with
      | none => row
      | some prod_num =>
        match List.lookup lhs ff with
        | none => row
        | some fstfol =>
          fstfol.2.foldl (fun row symbol =>
            if symbol ∈ ALL_TERMINALS ∨ symbol = ENDMARK then
              rowSetG row symbol ("r" ++ toString prod_num)
            else row) row
    else rowSetG row ENDMARK "acc"

/-- The per-item pass over one whole state, starting from the fresh row the
defaultdict creates at the first assignment. -/
def slrStateActionRow (productions : List (Sym × Production))
    (transitions : List ((Nat × Sym) × Nat))
    (ff : List (Sym × (List Sym × List Sym))) (state_num : Nat)
    (items : ItemSet) : Row :=
  items.foldl (slrItemPass productions transitions ff state_num) []

/-- The goto row of one state: for every nonterminal with a recorded
transition, its target id (the Python iteration over the set
ALL_NONTERMINALS, here in declaration order). -/
def slrStateGotoRow (transitions : List ((Nat × Sym) × Nat))
    (state_num : Nat) : GRow :=
  ALL_NONTERMINALS.foldl (fun row nt =>
    match List.lookup (state_num, nt) transitions with
    | some next => rowSetG row nt next
    | none => row) []

/-- The default-fill pass over one action row: scanning the sorted terminals
plus the end marker, skip Shift cells, propagate the first Reduce found into
every still-missing column, and mark remaining missing columns as explicit
error cells. Both write sites only append columns that are absent. -/
def defaultFillRow (row : Row) : Row :=
  (sortedTerminals ++ [ENDMARK]).foldl (fun row terminal =>
    let value := (List.lookup terminal row).getD ""
    if strHead value = some 's' then row
    else if strHead value = some 'r' then
      (sortedTerminals ++ [ENDMARK]).foldl (fun row t =>
        if (List.lookup t row).isNone then row ++ [(t, value)] else row) row
    else if (List.lookup terminal row).isNone then row ++ [(terminal, "error")]
    else row) row

/-- The combined ACTION and GOTO tables. -/
structure SlrTable where
  action : List (Nat × Row)
  goto : List (Nat × GRow)
deriving DecidableEq, Repr

/-- `slr_util.build_slr_table`, computation path (the cache-hit early return
and the CSV write are persistence concerns outside the model; the constructed
in-memory table is returned). A state whose per-item pass wrote nothing has no
action row at all (the defaultdict never created one), so the default-fill
pass does not touch it; likewise for goto rows. -/
def build_slr_table (g : Grammar)
    (ff : List (Sym × (List Sym × List Sym))) : Option SlrTable :=
  match compute_lr0_states g with
  | none => none
  | some (states, transitions) =>
    let productions := productionsOf g
    let actions := (states.enum.map (fun ist =>
        (ist.1, slrStateActionRow productions transitions ff ist.1 ist.2))).filter
        (fun r => !r.2.isEmpty)
    let gotos := ((List.range states.length).map (fun i =>
        (i, slrStateGotoRow transitions i))).filter (fun r => !r.2.isEmpty)
    some { action := actions.map (fun r => (r.1, defaultFillRow r.2)),
           goto := gotos }

/-- The cell of the ACTION table at a state and column, when present. -/
def actionCell (t : Option SlrTable) (st : Nat) (k : Sym) : Option String :=
  match t with
  | some t =>
    match List.lookup st t.action with
    | some row => List.lookup k row
    | none => none
  | none => none

/-- A small augmented grammar over the shipped symbol vocabulary, used as a
concrete input below: synthetic-start -> COMANDO; COMANDO -> id ; | id. -/
def Gc : Grammar := [(sPrime, [["COMANDO"]]), ("COMANDO", [["id", ";"], ["id"]])]

/-- A first/follow map for `Gc` with FOLLOW(COMANDO) = { ";" }. -/
def GcFF : List (Sym × (List Sym × List Sym)) := [("COMANDO", ([], [";"]))]

/-- The reduce numbering of `Gc`. -/
def GcProds : List (Sym × Production) := productionsOf Gc

/-- The states of the LR(0) automaton of `Gc`. -/
def GcStates : List ItemSet := ((compute_lr0_states Gc).getD ([], [])).1

/-- The transitions of the LR(0) automaton of `Gc`. -/
def GcTrans : List ((Nat × Sym) × Nat) := ((compute_lr0_states Gc).getD ([], [])).2

/-- C8 witness: the closure-closedness statement applied to the concrete
grammar `Gc` and its state 2. -/
theorem lr0_states_closed_witness :
    closure Gc [("COMANDO", ["id"], [";"]), ("COMANDO", ["id"], [])] =
        [("COMANDO", ["id"], [";"]), ("COMANDO", ["id"], [])] ∧
      ([("COMANDO", ["id"], [";"]), ("COMANDO", ["id"], [])] : ItemSet) ≠ [] :=
  (lr0_states_closed_and_unique Gc GcStates GcTrans rfl).1
    [("COMANDO", ["id"], [";"]), ("COMANDO", ["id"], [])] (by decide)

/-- C1 counterexample: in state 2 of the automaton of `Gc` the per-item pass
first writes Shift "s3" into the cell of terminal ";" and the complete item
processed next overwrites that same cell with Reduce "r1"; the finished table
records the Reduce, so a cell holding a Shift was overwritten by a Reduce in
the per-item pass. -/
theorem slr_shift_overwritten_by_reduce :
    GcStates.get? 2 = some [("COMANDO", ["id"], [";"]), ("COMANDO", ["id"], [])] ∧
      slrItemPass GcProds GcTrans GcFF 2 [] ("COMANDO", ["id"], [";"]) =
        [(";", "s3")] ∧
      slrItemPass GcProds GcTrans GcFF 2 [(";", "s3")] ("COMANDO", ["id"], []) =
        [(";", "r1")] ∧
      actionCell (build_slr_table Gc GcFF) 2 ";" = some "r1" := by
  refine ⟨by decide, by decide, by decide, by decide⟩

theorem lookup_append_of_some {V : Type} {t : Sym} {v : V} :
    ∀ (row : List (Sym × V)), List.lookup t row = some v →
      ∀ (l : List (Sym × V)), List.lookup t (row ++ l) = some v := by
  intro row
  induction row with
  | nil => intro h; simp [List.lookup] at h
  | cons kv rest ih =>
    intro h l
    rw [List.cons_append]
    cases hb : (t == kv.1) with
    | false =>
      have h' : List.lookup t rest = some v := by simpa [List.lookup, hb] using h
      simpa [List.lookup, hb] using ih h' l
    | true =>
      have h2 : kv.2 = v := by simpa [List.lookup, hb] using h
      simpa [List.lookup, hb] using h2

theorem foldl_extends {α β : Type} (f : List β → α → List β)
    (hf : ∀ r a, ∃ e, f r a = r ++ e) :
    ∀ (l : List α) (r : List β), ∃ e, l.foldl f r = r ++ e := by
  intro l
  induction l with
  | nil => intro r; exact ⟨[], by simp⟩
  | cons a t ih =>
    intro r
    obtain ⟨e1, he1⟩ := hf r a
    obtain ⟨e2, he2⟩ := ih (f r a)
    refine ⟨e1 ++ e2, ?_⟩
    rw [List.foldl_cons, he2, he1, List.append_assoc]

theorem defaultFillRow_extends (row : Row) :
    ∃ e, defaultFillRow row = row ++ e := by
  unfold defaultFillRow
  refine foldl_extends _ ?_ _ row
  intro r terminal
  by_cases h1 : strHead ((List.lookup terminal r).getD "") = some 's'
  · exact ⟨[], by simp [h1]⟩
  · by_cases h2 : strHead ((List.lookup terminal r).getD "") = some 'r'
    · obtain ⟨e, he⟩ := foldl_extends
        (fun row t => if (List.lookup t row).isNone then
          row ++ [(t, (List.lookup terminal r).getD "")] else row)
        (fun r' a => by
          by_cases h : (List.lookup a r').isNone
          · exact ⟨[(a, (List.lookup terminal r).getD "")], by simp [h]⟩
          · exact ⟨[], by simp [h]⟩)
        (sortedTerminals ++ [ENDMARK]) r
      exact ⟨e, by simp only [h1, h2, if_neg, if_pos, if_false, if_true]; exact he⟩
    · by_cases h3 : (List.lookup terminal r).isNone
      · exact ⟨[(terminal, "error")], by simp [h1, h2, h3]⟩
      · exact ⟨[], by simp [h1, h2, h3]⟩

/-- C1 (amended): only the default-fill pass protects existing cells — it
writes exclusively to columns with no entry yet, so a cell already holding a
Shift (or any other action) survives the pass with its value unchanged; in
the per-item pass every write is an unconditional dict assignment, so the
write processed later in the state's item-iteration order wins, and a Reduce
processed after a Shift does overwrite it. -/
theorem default_fill_preserves_existing (row : Row) (t : Sym) (v : String)
    (h : List.lookup t row = some v) :
    List.lookup t (defaultFillRow row) = some v := by
  obtain ⟨e, he⟩ := defaultFillRow_extends row
  rw [he]
  exact lookup_append_of_some row h e

/-- C1 witness: the amended statement applied to a one-cell row holding a
Shift. -/
theorem default_fill_preserves_witness :
    List.lookup ";" (defaultFillRow [(";", "s3")]) = some "s3" :=
  default_fill_preserves_existing [(";", "s3")] ";" "s3" (by decide)

/-- The worklist loop of `compute_lr0_states` with the set-iteration schedule
explicit: before the symbol loop of each state, `pick` reorders the
first-seen list of dot-following symbols, modelling the hash-dependent
iteration order of the Python set `all_symbols` — the one piece of the
construction that varies between interpreter runs and decides in which order
goto successors are discovered, hence how states are numbered. `lr0Aux` is
this loop at the first-seen schedule. -/
def lr0AuxOrd (pick : List Sym → List Sym) (g : Grammar) :
    Nat → List ItemSet → List ((Nat × Sym) × Nat) → Nat →
      List ItemSet × List ((Nat × Sym) × Nat)
  | 0, states, transitions, _ => (states, transitions)
  | fuel + 1, states, transitions, i =>
    match states.get? i with
    | none => (states, transitions)
    | some current =>
      let step := (pick (allSymbolsOf current)).foldl (lr0Step g current i)
        (states, transitions)
      lr0AuxOrd pick g fuel step.1 step.2 (i + 1)

/-- `compute_lr0_states` with the set-iteration schedule explicit. -/
def computeLr0StatesOrd (pick : List Sym → List Sym) (g : Grammar) :
    Option (List ItemSet × List ((Nat × Sym) × Nat)) :=
  match g with
  | _ :: (k1, _) :: _ =>
    let initial := closure g [(sPrime, [], [k1])]
    some (lr0AuxOrd pick g (lr0Fuel g) [initial] [] 0)
  | _ => none

/-- `build_slr_table` with the set-iteration schedule of the automaton
construction explicit. -/
def buildSlrTableOrd (pick : List Sym → List Sym) (g : Grammar)
    (ff : List (Sym × (List Sym × List Sym))) : Option SlrTable :=
  match computeLr0StatesOrd pick g with
  | none => none
  | some (states, transitions) =>
    let productions := productionsOf g
    let actions := (states.enum.map (fun ist =>
        (ist.1, slrStateActionRow productions transitions ff ist.1 ist.2))).filter
        (fun r => !r.2.isEmpty)
    let gotos := ((List.range states.length).map (fun i =>
        (i, slrStateGotoRow transitions i))).filter (fun r => !r.2.isEmpty)
    some { action := actions.map (fun r => (r.1, defaultFillRow r.2)),
           goto := gotos }

theorem lr0AuxOrd_id (g : Grammar) : ∀ (fuel : Nat) (states : List ItemSet)
    (transitions : List ((Nat × Sym) × Nat)) (i : Nat),
    lr0AuxOrd (fun l => l) g fuel states transitions i =
      lr0Aux g fuel states transitions i := by
  intro fuel
  induction fuel with
  | zero => intro s t i; rfl
  | succ n ih =>
    intro states transitions i
    have h1 : lr0AuxOrd (fun l => l) g (n + 1) states transitions i =
        match states.get? i with
        | none => (states, transitions)
        | some current =>
          lr0AuxOrd (fun l => l) g n
            ((allSymbolsOf current).foldl (lr0Step g current i) (states, transitions)).1
            ((allSymbolsOf current).foldl (lr0Step g current i) (states, transitions)).2
            (i + 1) := rfl
    have h2 : lr0Aux g (n + 1) states transitions i =
        match states.get? i with
        | none => (states, transitions)
        | some current =>
          lr0Aux g n
            ((allSymbolsOf current).foldl (lr0Step g current i) (states, transitions)).1
            ((allSymbolsOf current).foldl (lr0Step g current i) (states, transitions)).2
            (i + 1) := rfl
    rw [h1, h2]
    cases states.get? i with
    | none => rfl
    | some current => exact ih _ _ _

/-- At the first-seen schedule the explicit-schedule automaton coincides with
`compute_lr0_states`. -/
theorem computeLr0StatesOrd_id (g : Grammar) :
    computeLr0StatesOrd (fun l => l) g = compute_lr0_states g := by
  cases g with
  | nil => rfl
  | cons k0 g' =>
    cases g' with
    | nil => rfl
    | cons kv1 rest =>
      obtain ⟨k1, v1⟩ := kv1
      show some (lr0AuxOrd (fun l => l) _ _ _ _ _) = some (lr0Aux _ _ _ _ _)
      rw [lr0AuxOrd_id]

/-- At the first-seen schedule the explicit-schedule build coincides with
`build_slr_table`. -/
theorem buildSlrTableOrd_id (g : Grammar)
    (ff : List (Sym × (List Sym × List Sym))) :
    buildSlrTableOrd (fun l => l) g ff = build_slr_table g ff := by
  unfold buildSlrTableOrd build_slr_table
  rw [computeLr0StatesOrd_id]

/-- The states discovered from `Gc` under the first-seen schedule. -/
def GcStatesA : List ItemSet :=
  ((computeLr0StatesOrd (fun l => l) Gc).getD ([], [])).1

/-- The states discovered from `Gc` under the reversed schedule. -/
def GcStatesB : List ItemSet :=
  ((computeLr0StatesOrd (fun l => l.reverse) Gc).getD ([], [])).1

/-- C6 counterexample: two runs of the construction from the same grammar
`Gc` with identical declaration order, differing only in the iteration order
of the symbol sets — the first-seen order versus its reverse, either of which
Python's hash-randomized set iteration can produce in some interpreter run —
yield different integer state numbering (the state lists differ, although
their contents agree up to renumbering: every item set of one run is
set-equal to one of the other) and different tables: the id-shift of state 0
targets state 2 in one run and state 1 in the other. -/
theorem lr0_numbering_depends_on_iteration_order :
    GcStatesA ≠ GcStatesB ∧
      buildSlrTableOrd (fun l => l) Gc GcFF ≠
        buildSlrTableOrd (fun l => l.reverse) Gc GcFF ∧
      actionCell (buildSlrTableOrd (fun l => l) Gc GcFF) 0 "id" = some "s2" ∧
      actionCell (buildSlrTableOrd (fun l => l.reverse) Gc GcFF) 0 "id" = some "s1" ∧
      (GcStatesA.all (fun s => GcStatesB.any (fun t => eqAsSet s t)) &&
        GcStatesB.all (fun s => GcStatesA.any (fun t => eqAsSet s t))) = true := by
  refine ⟨by decide, by decide, by decide, by decide, by decide⟩

/-- C6 (amended): identical tables and identical state numbering are
guaranteed exactly for runs whose set-iteration schedules agree: the
construction reads nothing beyond the declaration-ordered grammar, the
first/follow map and that schedule, so two builds with extensionally equal
schedules — as two builds inside one interpreter run, where equal sets built
by the same history iterate in the same order, the caches being cleared so
both take the computation path — produce identical ACTION and GOTO tables,
identical transitions and identical integer state numbering; across runs
whose schedules differ the numbering can change (see the counterexample). -/
theorem build_identical_given_schedule (pick₁ pick₂ : List Sym → List Sym)
    (h : ∀ l, pick₁ l = pick₂ l) (g : Grammar)
    (ff : List (Sym × (List Sym × List Sym))) :
    buildSlrTableOrd pick₁ g ff = buildSlrTableOrd pick₂ g ff ∧
      computeLr0StatesOrd pick₁ g = computeLr0StatesOrd pick₂ g := by
  have hp : pick₁ = pick₂ := funext h
  subst hp
  exact ⟨rfl, rfl⟩

/-- C6 witness: the amended statement applied at the first-seen schedule and
the grammar `Gc`, where by `buildSlrTableOrd_id` the common value is the
table `build_slr_table` itself constructs. -/
theorem build_identical_given_schedule_witness :
    buildSlrTableOrd (fun l => l) Gc GcFF = buildSlrTableOrd (fun l => l) Gc GcFF ∧
      computeLr0StatesOrd (fun l => l) Gc = computeLr0StatesOrd (fun l => l) Gc :=
  build_identical_given_schedule (fun l => l) (fun l => l) (fun _ => rfl) Gc GcFF

/-- Drop the first character of a string (the `action[1:]` slice on the
one-letter action tags). -/
def strTail (s : String) : String := ⟨s.data.tail⟩

/-- Python `int(s)` on the digit strings of the table, via the character
list; `none` models the ValueError on anything non-numeric. -/
def strToNat? (s : String) : Option Nat :=
  if s.data ≠ [] ∧ s.data.all (fun c => c.isDigit) then
    some (s.data.foldl (fun n c => n * 10 + (c.toNat - 48)) 0)
  else none

/-- A parse stack entry: an integer state or a grammar symbol; `noneEntry`
models the Python `None` pushed when no producing nonterminal is found for a
reduce. -/
inductive StackEntry where
  | state (n : Nat)
  | sym (s : Sym)
  | noneEntry
deriving DecidableEq, Repr

/-- A derivation-tree node (`derv_util.DerivationNode`): symbol, optional
lexeme, optional state, optional source line, owned children. The parent
back-reference is omitted: `add_child` sets it only when a node is popped off
the node stack and attached, so no node still on the stack ever carries one.
The `depth` attribute (never set past its default 0, never read) is omitted
too. -/
inductive DNode where
  | mk (symbol : Sym) (lexeme : Option Sym) (state : Option Nat)
      (line : Option Nat) (children : List DNode)

/-- `derv_util.DerivationTree`: optional root, the node stack parallel to the
parse stack, and all nodes in creation order. -/
structure DerivationTree where
  root : Option DNode
  node_stack : List DNode
  all_nodes : List DNode

/-- A fresh derivation tree. -/
def emptyTree : DerivationTree := { root := none, node_stack := [], all_nodes := [] }

/-- `DerivationTree.shift_terminal`: create a leaf for the shifted token and
push it. -/
def shiftTerminal (t : DerivationTree) (symbol : Sym) (lexeme : Option Sym)
    (state : Option Nat) (line : Option Nat) : DerivationTree :=
  { t with
    node_stack := t.node_stack ++ [DNode.mk symbol lexeme state line []],
    all_nodes := t.all_nodes ++ [DNode.mk symbol lexeme state line []] }

/-- `DerivationTree.reduce_production`: pop as many nodes as the production
has symbols (none for the empty production; at most as many as the stack
holds), attach them in restored left-to-right order as the children of a new
node for the lhs, push it, and set the root when the lhs is the start symbol
PROGRAMA or the stack collapsed to this single node (no stacked node carries
a parent; see DNode). -/
def reduceProduction (t : DerivationTree) (lhs : Sym) (rhs : Production)
    (new_state : Option Nat) : DerivationTree :=
  let k := if rhs = [EPS] then 0 else rhs.length
  let m := min k t.node_stack.length
  let children := t.node_stack.drop (t.node_stack.length - m)
  let kept := t.node_stack.take (t.node_stack.length - m)
  let parent := DNode.mk lhs none new_state none children
  { root := if lhs = "PROGRAMA" ∨ (kept ++ [parent]).length = 1 then some parent
            else t.root,
    node_stack := kept ++ [parent],
    all_nodes := t.all_nodes ++ [parent] }

/-- A recorded parse error: a syntax-error entry carries the offending token
and the source line the Python code formats into its message string; a loop
entry the state/token pair of the detected recovery loop. -/
inductive ErrEntry where
  | synError (token : Sym) (line : Nat)
  | loopErr (state : Nat) (token : Sym)
deriving DecidableEq, Repr

/-- A parse outcome: the Python function returns a 3-tuple (without the error
list) on the unknown-action path and a 4-tuple everywhere else; `crash`
models an uncaught Python exception. -/
inductive ParseResult where
  | three (success : Bool) (stack : List StackEntry) (tree : DerivationTree)
  | four (success : Bool) (stack : List StackEntry) (tree : DerivationTree)
      (errors : List ErrEntry)
  | crash

/-- The mutable state of the parse loop. The stack is stored top-first (the
Python list pushes and pops at its right end). -/
structure ParseConfig where
  stack : List StackEntry
  input_tokens : List (Sym × Sym)
  current_token : Sym
  current_lexeme : Sym
  line_list : List Nat
  tree : DerivationTree
  step_count : Nat
  error_list : List ErrEntry
  last_error_key : Option (Nat × Sym)
  error_streak : Nat

/-- `ERROR_STREAK_LIMIT` of `derv_util.parse`. -/
def ERROR_STREAK_LIMIT : Nat := 1000

/-- The step cap of `derv_util.parse` (`if step_count > 1000`). -/
def STEP_LIMIT : Nat := 1000

/-- The flattened production list `prods` of `derv_util.parse`, built from
the shipped grammar. -/
def parseProds : List Production := (gramatica.map Prod.snd).flatten

/-- The ACTION lookup `slr_dict.get(current_token, [])[int(top)] if
current_token in slr_dict else ''`: the empty string when the token is not a
column; `none` (a crash) when the stack top is not an integer state or the
column is too short for the state index. -/
def lookupAction (slr : List (Sym × List String)) (tok : Sym)
    (stack : List StackEntry) : Option String :=
  match List.lookup tok slr with
  | none => some ""
  | some row =>
    match stack.head? with
    | some (StackEntry.state n) => row.get? n
    | _ => none

/-- Pop up to `n` entries, never shrinking the stack below 2 entries (the
per-pop guard `if len(stack) > 2` of the reduce branch). -/
def popGuard : Nat → List StackEntry → List StackEntry
  | 0, s => s
  | n + 1, s => if s.length > 2 then popGuard n s.tail else s

/-- The outcome of one loop body: return from `parse`, or continue looping. -/
inductive StepOut where
  | ret (r : ParseResult)
  | cont (c : ParseConfig)

/-- One body of the parse loop, after the step-count bump and cap check:
empty action (unknown column) returns the 3-tuple; an `e...` action records a
syntax error, skips the token and aborts with the loop-error entry when the
same (state, token) pair has recurred `ERROR_STREAK_LIMIT` times; an `s...`
action shifts; an `r...` action reduces and aborts with the 4-tuple when the
GOTO cell is empty; `acc` accepts; anything else falls through the elif chain
and loops with nothing changed. -/
def parseStep (slr : List (Sym × List String)) (cfg : ParseConfig) : StepOut :=
  match lookupAction slr cfg.current_token cfg.stack with
  | none => .ret .crash
  | some action =>
    if action = "" then .ret (.three false cfg.stack cfg.tree)
    else if strHead action = some 'e' then
      match cfg.line_list.head? with
      | none => .ret .crash
      | some line0 =>
        let errs := cfg.error_list ++ [ErrEntry.synError cfg.current_token line0]
        let popped := match cfg.input_tokens with
          | [] => ((ENDMARK, ENDMARK), ([] : List (Sym × Sym)))
          | t :: ts => (t, ts)
        let ct := popped.1.1
        let topn := match cfg.stack.head? with
          | some (StackEntry.state n) => n
          | _ => 0
        let streak := if some (topn, ct) = cfg.last_error_key then
          cfg.error_streak + 1 else 1
        if streak ≥ ERROR_STREAK_LIMIT then
          .ret (.four false cfg.stack cfg.tree (errs ++ [ErrEntry.loopErr topn ct]))
        else
          .cont { cfg with
            error_list := errs,
            current_token := ct,
            current_lexeme := ct,
            input_tokens := popped.2,
            last_error_key := some (topn, ct),
            error_streak := streak,
            line_list := if cfg.line_list.length > 1 then cfg.line_list.tail
                         else cfg.line_list }
    else if strHead action = some 's' then
      match strToNat? (strTail action) with
      | none => .ret .crash
      | some next_state =>
        let next := match cfg.input_tokens with
          | [] => (cfg.current_token, cfg.current_lexeme, ([] : List (Sym × Sym)))
          | t :: ts => (t.1, t.2, ts)
        .cont { cfg with
          stack := StackEntry.state next_state :: StackEntry.sym cfg.current_token
            :: cfg.stack,
          tree := shiftTerminal cfg.tree cfg.current_token (some cfg.current_lexeme)
            (some next_state) (some (cfg.line_list.headD 0)),
          current_token := next.1,
          current_lexeme := next.2.1,
          input_tokens := next.2.2,
          line_list := if cfg.line_list.length > 0 then cfg.line_list.tail
                       else cfg.line_list }
    else if strHead action = some 'r' then
      match strToNat? (strTail action) with
      | none => .ret .crash
      | some num_prod =>
        match parseProds.get? num_prod with
        | none => .ret .crash
        | some production =>
          let nt_prod : Option Sym :=
            (gramatica.find? (fun kv => decide (production ∈ kv.2))).map Prod.fst
          let stack₂ := (match nt_prod with
            | some nt => StackEntry.sym nt
            | none => StackEntry.noneEntry) ::
              popGuard (production.length * 2) cfg.stack
          let gotoRes : Option String :=
            match nt_prod with
            | some nt =>
              match List.lookup nt slr with
              | some row =>
                match stack₂.get? 1 with
                | some (StackEntry.state m) => row.get? m
                | _ => none
              | none => some ""
            | none => some ""
          match gotoRes with
          | none => .ret .crash
          | some gs =>
            if gs ≠ "" then
              match strToNat? gs, nt_prod with
              | some new_state, some nt =>
                .cont { cfg with
                  stack := StackEntry.state new_state :: stack₂,
                  tree := reduceProduction cfg.tree nt production (some new_state) }
              | _, _ => .ret .crash
            else .ret (.four false stack₂ cfg.tree cfg.error_list)
    else if action = "acc" then .ret (.four true cfg.stack cfg.tree cfg.error_list)
    else .cont cfg

/-- The while-loop of `derv_util.parse`: bump the step counter, break at the
step cap, then run one body. The fuel only bounds the recursion; at the value
`parse` passes it is never exhausted, because the cap breaks the loop
first. -/
def parseLoop (slr : List (Sym × List String)) : Nat → ParseConfig → ParseResult
  | 0, cfg => .four false cfg.stack cfg.tree cfg.error_list
  | fuel + 1, cfg =>
    if cfg.step_count + 1 > STEP_LIMIT then
      .four false cfg.stack cfg.tree cfg.error_list
    else
      match parseStep slr { cfg with step_count := cfg.step_count + 1 } with
      | .ret r => r
      | .cont c => parseLoop slr fuel c

/-- `derv_util.parse`: append the end-marker token, consume the first token,
start from the stack [end-marker, state 0] (stored top-first) and run the
loop. -/
def parse (token_tuples : List (Sym × Sym)) (line_list : List Nat)
    (slr : List (Sym × List String)) : ParseResult :=
  match token_tuples ++ [(ENDMARK, ENDMARK)] with
  | [] => .crash
  | t :: rest =>
    parseLoop slr (STEP_LIMIT + 2)
      { stack := [StackEntry.state 0, StackEntry.sym ENDMARK],
        input_tokens := rest,
        current_token := t.1,
        current_lexeme := t.2,
        line_list := line_list,
        tree := emptyTree,
        step_count := 0,
        error_list := [],
        last_error_key := none,
        error_streak := 0 }

theorem parseLoop_succ (slr : List (Sym × List String)) (fuel : Nat)
    (cfg : ParseConfig) :
    parseLoop slr (fuel + 1) cfg =
      if cfg.step_count + 1 > STEP_LIMIT then
        .four false cfg.stack cfg.tree cfg.error_list
      else
        match parseStep slr { cfg with step_count := cfg.step_count + 1 } with
        | .ret r => r
        | .cont c => parseLoop slr fuel c := rfl

theorem parseStep_error (slr : List (Sym × List String)) (cfg : ParseConfig)
    (action : String) (line0 : Nat) (tok1 : Sym × Sym) (rest : List (Sym × Sym))
    (topn : Nat)
    (hact : lookupAction slr cfg.current_token cfg.stack = some action)
    (hne : action ≠ "")
    (he : strHead action = some 'e')
    (hline : cfg.line_list.head? = some line0)
    (hinput : cfg.input_tokens = tok1 :: rest)
    (htop : cfg.stack.head? = some (StackEntry.state topn)) :
    parseStep slr cfg =
      if (if some (topn, tok1.1) = cfg.last_error_key then cfg.error_streak + 1
          else 1) ≥ ERROR_STREAK_LIMIT then
        .ret (.four false cfg.stack cfg.tree
          ((cfg.error_list ++ [ErrEntry.synError cfg.current_token line0]) ++
            [ErrEntry.loopErr topn tok1.1]))
      else
        .cont { cfg with
          error_list := cfg.error_list ++ [ErrEntry.synError cfg.current_token line0],
          current_token := tok1.1,
          current_lexeme := tok1.1,
          input_tokens := rest,
          last_error_key := some (topn, tok1.1),
          error_streak := if some (topn, tok1.1) = cfg.last_error_key then
            cfg.error_streak + 1 else 1,
          line_list := if cfg.line_list.length > 1 then cfg.line_list.tail
                       else cfg.line_list } := by
  unfold parseStep
  rw [hact]
  dsimp only
  rw [if_neg hne, if_pos he, hline]
  dsimp only
  rw [hinput]
  dsimp only
  rw [htop]

/-- The table of the stress scenario: a single column for the token "x" whose
state-0 cell is the explicit error action. -/
def stressSlr : List (Sym × List String) := [("x", ["error"])]

/-- The loop state after `k` error-recovery iterations of the stress run:
`m` tokens (plus the end marker) remaining, `n` lines left, `k` identical
syntax errors recorded, an error streak of `k` on the pair (state 0, "x"). -/
def stressCfg (k m n : Nat) : ParseConfig :=
  { stack := [StackEntry.state 0, StackEntry.sym ENDMARK],
    input_tokens := List.replicate m ("x", "x") ++ [(ENDMARK, ENDMARK)],
    current_token := "x",
    current_lexeme := "x",
    line_list := List.replicate n 1,
    tree := emptyTree,
    step_count := k,
    error_list := List.replicate k (ErrEntry.synError "x" 1),
    last_error_key := if k = 0 then none else some (0, "x"),
    error_streak := k }

theorem stress_step (k m n fuel : Nat) (hk : k + 1 < ERROR_STREAK_LIMIT) :
    parseLoop stressSlr (fuel + 1) (stressCfg k (m + 1) (n + 2)) =
      parseLoop stressSlr fuel (stressCfg (k + 1) m (n + 1)) := by
  have hlim : ERROR_STREAK_LIMIT = 1000 := rfl
  rw [parseLoop_succ]
  rw [if_neg (by simp only [stressCfg, STEP_LIMIT]; omega)]
  rw [parseStep_error stressSlr _ "error" 1 ("x", "x")
      (List.replicate m ("x", "x") ++ [(ENDMARK, ENDMARK)]) 0
      (by rfl) (by decide) (by decide)
      (by simp [stressCfg, List.replicate_succ])
      (by simp [stressCfg, List.replicate_succ])
      (by rfl)]
  have hstreak : (if some ((0 : Nat), ("x" : Sym)) =
      ({ stressCfg k (m + 1) (n + 2) with
          step_count := (stressCfg k (m + 1) (n + 2)).step_count + 1 } :
        ParseConfig).last_error_key then
      ({ stressCfg k (m + 1) (n + 2) with
          step_count := (stressCfg k (m + 1) (n + 2)).step_count + 1 } :
        ParseConfig).error_streak + 1 else 1) = k + 1 := by
    cases k with
    | zero => simp [stressCfg]
    | succ j => simp [stressCfg]
  rw [hstreak, if_neg (by omega)]
  dsimp only
  apply congrArg (parseLoop stressSlr fuel)
  have herr : List.replicate k (ErrEntry.synError "x" 1) ++ [ErrEntry.synError "x" 1] =
      List.replicate (k + 1) (ErrEntry.synError "x" 1) :=
    (List.replicate_succ' _ _).symm
  have hline2 : (List.replicate (n + 2) (1 : Nat)).tail = List.replicate (n + 1) 1 := by
    simp [List.replicate_succ]
  simp [stressCfg, herr, hline2]

theorem stress_final (m n fuel : Nat) :
    parseLoop stressSlr (fuel + 1) (stressCfg 999 (m + 1) (n + 2)) =
      .four false [StackEntry.state 0, StackEntry.sym ENDMARK] emptyTree
        (List.replicate 1000 (ErrEntry.synError "x" 1) ++
          [ErrEntry.loopErr 0 "x"]) := by
  rw [parseLoop_succ]
  rw [if_neg (by simp only [stressCfg, STEP_LIMIT]; omega)]
  rw [parseStep_error stressSlr _ "error" 1 ("x", "x")
      (List.replicate m ("x", "x") ++ [(ENDMARK, ENDMARK)]) 0
      (by rfl) (by decide) (by decide)
      (by simp [stressCfg, List.replicate_succ])
      (by simp [stressCfg, List.replicate_succ])
      (by rfl)]
  have hstreak : (if some ((0 : Nat), ("x" : Sym)) =
      ({ stressCfg 999 (m + 1) (n + 2) with
          step_count := (stressCfg 999 (m + 1) (n + 2)).step_count + 1 } :
        ParseConfig).last_error_key then
      ({ stressCfg 999 (m + 1) (n + 2) with
          step_count := (stressCfg 999 (m + 1) (n + 2)).step_count + 1 } :
        ParseConfig).error_streak + 1 else 1) = 1000 := by
    simp [stressCfg]
  rw [hstreak, if_pos (show (1000 : Nat) ≥ ERROR_STREAK_LIMIT from Nat.le_refl 1000)]
  dsimp only
  have herr : List.replicate 999 (ErrEntry.synError "x" 1) ++ [ErrEntry.synError "x" 1] =
      List.replicate 1000 (ErrEntry.synError "x" 1) :=
    (List.replicate_succ' _ _).symm
  simp [stressCfg, herr]

theorem stress_chain : ∀ i, i ≤ 999 →
    parseLoop stressSlr (i + 3) (stressCfg (999 - i) (1000 + i) (1001 + i)) =
      .four false [StackEntry.state 0, StackEntry.sym ENDMARK] emptyTree
        (List.replicate 1000 (ErrEntry.synError "x" 1) ++
          [ErrEntry.loopErr 0 "x"]) := by
  intro i
  induction i with
  | zero =>
    intro _
    simpa using stress_final 999 999 2
  | succ j ih =>
    intro hj
    have hj' : j ≤ 999 := by omega
    have hstep := stress_step (998 - j) (1000 + j) (1000 + j) (j + 3)
      (by simp only [ERROR_STREAK_LIMIT]; omega)
    have h0 : j + 1 + 3 = j + 3 + 1 := by omega
    have h1 : 999 - (j + 1) = 998 - j := by omega
    have h2 : 1000 + (j + 1) = 1000 + j + 1 := by omega
    have h3 : 1001 + (j + 1) = 1000 + j + 2 := by omega
    rw [h0, h1, h2, h3, hstep]
    rw [show 998 - j + 1 = 999 - j from by omega,
      show 1000 + j + 1 = 1001 + j from by omega]
    exact ih hj'

/-- The 2000 identical invalid tokens of the stress scenario. -/
def stressTokens : List (Sym × Sym) := List.replicate 2000 ("x", "x")

/-- Their source lines. -/
def stressLines : List Nat := List.replicate 2000 1

/-- C2: on an input of 2000 identical tokens that are all invalid in the
current state (their state-0 cell holds the explicit error action), parse
aborts through the consecutive-error-streak cap at step 1000 — the step-count
cap would not fire before step 1001, and an abort by the step cap would leave
no loop-detected entry — returning failure with 1000 identical syntax-error
records plus the single loop-detected record: 1001 entries, not 2000. -/
theorem parse_stress_error_streak_cap :
    parse stressTokens stressLines stressSlr =
      .four false [StackEntry.state 0, StackEntry.sym ENDMARK] emptyTree
        (List.replicate 1000 (ErrEntry.synError "x" 1) ++
          [ErrEntry.loopErr 0 "x"]) ∧
      (List.replicate 1000 (ErrEntry.synError "x" 1) ++
        [ErrEntry.loopErr 0 "x"]).length = 1001 := by
  constructor
  · have hchain := stress_chain 999 (le_refl _)
    have hx : stressTokens ++ [(ENDMARK, ENDMARK)] =
        ("x", "x") :: (List.replicate 1999 ("x", "x") ++ [(ENDMARK, ENDMARK)]) := by
      show List.replicate 2000 ("x", "x") ++ _ = _
      rw [show (2000 : Nat) = 1999 + 1 from by norm_num, List.replicate_succ,
        List.cons_append]
    show (match stressTokens ++ [(ENDMARK, ENDMARK)] with
      | [] => ParseResult.crash
      | t :: rest =>
        parseLoop stressSlr (STEP_LIMIT + 2)
          { stack := [StackEntry.state 0, StackEntry.sym ENDMARK],
            input_tokens := rest,
            current_token := t.1,
            current_lexeme := t.2,
            line_list := stressLines,
            tree := emptyTree,
            step_count := 0,
            error_list := [],
            last_error_key := none,
            error_streak := 0 }) = _
    rw [hx]
    dsimp only
    rw [show (999 : Nat) - 999 = 0 from by norm_num,
      show (1000 : Nat) + 999 = 1999 from by norm_num,
      show (1001 : Nat) + 999 = 2000 from by norm_num,
      show (999 : Nat) + 3 = STEP_LIMIT + 2 from rfl] at hchain
    exact hchain
  · decide

/-- C10: when the current token's category is not a column of the loaded SLR
table, the ACTION lookup yields an empty value rather than an explicit error
entry, and parse returns immediately — without attempting token-skip
recovery — with the 3-tuple (success = false, stack, tree) that omits the
error-list component every other return path of parse carries. -/
theorem parse_unknown_token_returns_triple
    (slr : List (Sym × List String)) (cfg : ParseConfig) (fuel : Nat)
    (hcap : cfg.step_count + 1 ≤ STEP_LIMIT)
    (hcol : List.lookup cfg.current_token slr = none) :
    parseLoop slr (fuel + 1) cfg = .three false cfg.stack cfg.tree := by
  rw [parseLoop_succ, if_neg (by omega)]
  have hla : lookupAction slr cfg.current_token cfg.stack = some "" := by
    unfold lookupAction
    rw [hcol]
  have hstep : parseStep slr { cfg with step_count := cfg.step_count + 1 } =
      .ret (.three false cfg.stack cfg.tree) := by
    unfold parseStep
    dsimp only
    rw [hla]
    dsimp only
    rw [if_pos rfl]
  rw [hstep]

/-- A configuration facing a token that is not a column of `stressSlr`. -/
def cfgC10 : ParseConfig :=
  { stack := [StackEntry.state 0, StackEntry.sym ENDMARK],
    input_tokens := [],
    current_token := "zzz",
    current_lexeme := "zzz",
    line_list := [1],
    tree := emptyTree,
    step_count := 0,
    error_list := [],
    last_error_key := none,
    error_streak := 0 }

/-- C10 witness: the unknown-column statement applied to a concrete
configuration and table. -/
theorem parse_unknown_token_witness :
    parseLoop stressSlr 5 cfgC10 = .three false cfgC10.stack cfgC10.tree :=
  parse_unknown_token_returns_triple stressSlr cfgC10 4 (by decide) (by decide)

/-- C7: when the reduce branch finds an empty GOTO cell for the production's
lhs at the uncovered top state (or the lhs is not a column at all), parse
aborts immediately: it returns success = false together with the current
(post-pop, lhs-pushed) stack, the partial derivation tree unchanged, and the
error list accumulated so far; it neither invents a continuation nor reports
success. -/
theorem parse_reduce_undefined_goto_aborts
    (slr : List (Sym × List String)) (cfg : ParseConfig) (fuel : Nat)
    (action : String) (num_prod : Nat) (production : Production) (nt : Sym)
    (hcap : cfg.step_count + 1 ≤ STEP_LIMIT)
    (hact : lookupAction slr cfg.current_token cfg.stack = some action)
    (hne : action ≠ "")
    (he : strHead action ≠ some 'e')
    (hs : strHead action ≠ some 's')
    (hr : strHead action = some 'r')
    (hnum : strToNat? (strTail action) = some num_prod)
    (hprod : parseProds.get? num_prod = some production)
    (hnt : (gramatica.find? (fun kv => decide (production ∈ kv.2))).map Prod.fst =
      some nt)
    (hgoto : (match List.lookup nt slr with
      | some row =>
        match (StackEntry.sym nt ::
            popGuard (production.length * 2) cfg.stack).get? 1 with
        | some (StackEntry.state m) => row.get? m
        | _ => none
      | none => some "") = some ("" : String)) :
    parseLoop slr (fuel + 1) cfg =
      .four false (StackEntry.sym nt :: popGuard (production.length * 2) cfg.stack)
        cfg.tree cfg.error_list := by
  rw [parseLoop_succ, if_neg (by omega)]
  have hstep : parseStep slr { cfg with step_count := cfg.step_count + 1 } =
      .ret (.four false
        (StackEntry.sym nt :: popGuard (production.length * 2) cfg.stack)
        cfg.tree cfg.error_list) := by
    unfold parseStep
    dsimp only
    rw [hact]
    dsimp only
    rw [if_neg hne, if_neg he, if_neg hs, if_pos hr, hnum]
    dsimp only
    rw [hprod]
    dsimp only
    rw [hnt]
    dsimp only
    rw [hgoto]
    dsimp only
    rw [if_neg (fun hcon => hcon rfl)]
  rw [hstep]

/-- A table whose state-0 cell for "x" orders reduce by production 0 while the
GOTO column of PROGRAMA is empty at state 0. -/
def slrC7 : List (Sym × List String) := [("x", ["r0"]), ("PROGRAMA", [""])]

/-- A configuration about to perform that reduce. -/
def cfgC7 : ParseConfig :=
  { stack := [StackEntry.state 0, StackEntry.sym ENDMARK],
    input_tokens := [],
    current_token := "x",
    current_lexeme := "x",
    line_list := [1],
    tree := emptyTree,
    step_count := 0,
    error_list := [],
    last_error_key := none,
    error_streak := 0 }

/-- C7 witness: the undefined-GOTO statement applied to a concrete table and
configuration. -/
theorem parse_reduce_undefined_goto_witness :
    parseLoop slrC7 3 cfgC7 =
      .four false (StackEntry.sym "PROGRAMA" :: popGuard 2 cfgC7.stack)
        cfgC7.tree cfgC7.error_list :=
  parse_reduce_undefined_goto_aborts slrC7 cfgC7 2 "r0" 0 ["LISTA_DE_COMANDOS"]
    "PROGRAMA" (by decide) (by decide) (by decide) (by decide) (by decide)
    (by decide) (by decide) (by decide) (by decide) (by decide)

/-- Set equality of symbol lists: mutual membership (Python set equality). -/
def setEqS (a b : List Sym) : Bool :=
  a.all (fun x => decide (x ∈ b)) && b.all (fun x => decide (x ∈ a))

/-- The FIRST/FOLLOW map the computation path of `compute_first_follow`
returns on the shipped grammar (established by `compute_first_follow_shipped`
below). -/
def shippedFF : List (Sym × (List Sym × List Sym)) :=
  [("PROGRAMA",
  ["tralalero", "tralala", "porcodio", "porcoala", "batapim", "chimpanzini", "lirili", "dunmadin", "tung", "=", "id",
   "valor_inteiro", "valor_real", "tripi", "tropa", "caractere", "string", "saturnita"],
  ["$"]),
 ("LISTA_DE_COMANDOS",
  ["tralalero", "tralala", "porcodio", "porcoala", "batapim", "chimpanzini", "lirili", "dunmadin", "tung", "=", "id",
   "valor_inteiro", "valor_real", "tripi", "tropa", "caractere", "string", "saturnita"],
  ["$", "sahur", "finitini"]),
 ("COMANDO",
  ["tralalero", "tralala", "porcodio", "porcoala", "batapim", "chimpanzini", "lirili", "dunmadin", "tung", "=", "id",
   "valor_inteiro", "valor_real", "tripi", "tropa", "caractere", "string", "saturnita"],
  ["tralalero", "tralala", "porcodio", "porcoala", "batapim", "chimpanzini", "lirili", "dunmadin", "tung", "=", "id",
   "valor_inteiro", "valor_real", "tripi", "tropa", "caractere", "string", "saturnita", "$", "sahur", "finitini"]),
 ("DECLARACAO",
  ["tralalero", "tralala", "porcodio", "porcoala"],
  ["tralalero", "tralala", "porcodio", "porcoala", "batapim", "chimpanzini", "lirili", "dunmadin", "tung", "=", "id",
   "valor_inteiro", "valor_real", "tripi", "tropa", "caractere", "string", "saturnita", "$", "sahur", "finitini", ";"]),
 ("ATRIBUICAO",
  ["=", "id", "valor_inteiro", "valor_real", "tripi", "tropa", "caractere", "string"],
  ["tralalero", "tralala", "porcodio", "porcoala", "batapim", "chimpanzini", "lirili", "dunmadin", "tung", "=", "id",
   "valor_inteiro", "valor_real", "tripi", "tropa", "caractere", "string", "saturnita", "$", "sahur", "finitini", ";"]),
 ("EXPRESSAO",
  ["id", "valor_inteiro", "valor_real", "tripi", "tropa", "caractere", "string"],
  ["tralalero", "tralala", "porcodio", "porcoala", "batapim", "chimpanzini", "lirili", "dunmadin", "tung", "=", "id",
   "valor_inteiro", "valor_real", "tripi", "tropa", "caractere", "string", "saturnita", "$", "sahur", "finitini", ";",
   "+", "-", "*", "/", "%", "==", "!=", ">", "<", "<=", ">=", "&&", "||", "delimitare", ")"]),
 ("OPERADOR",
  ["+", "-", "*", "/", "%", "==", "!=", ">", "<", "<=", ">=", "&&", "||"],
  ["id", "valor_inteiro", "valor_real", "tripi", "tropa", "caractere", "string"]),
 ("ENTRADA",
  ["batapim"],
  ["tralalero", "tralala", "porcodio", "porcoala", "batapim", "chimpanzini", "lirili", "dunmadin", "tung", "=", "id",
   "valor_inteiro", "valor_real", "tripi", "tropa", "caractere", "string", "saturnita", "$", "sahur", "finitini"]),
 ("SAIDA",
  ["chimpanzini"],
  ["tralalero", "tralala", "porcodio", "porcoala", "batapim", "chimpanzini", "lirili", "dunmadin", "tung", "=", "id",
   "valor_inteiro", "valor_real", "tripi", "tropa", "caractere", "string", "saturnita", "$", "sahur", "finitini"]),
 ("DECISAO",
  ["lirili"],
  ["tralalero", "tralala", "porcodio", "porcoala", "batapim", "chimpanzini", "lirili", "dunmadin", "tung", "=", "id",
   "valor_inteiro", "valor_real", "tripi", "tropa", "caractere", "string", "saturnita", "$", "sahur", "finitini"]),
 ("LACO_CONTADO",
  ["dunmadin"],
  ["tralalero", "tralala", "porcodio", "porcoala", "batapim", "chimpanzini", "lirili", "dunmadin", "tung", "=", "id",
   "valor_inteiro", "valor_real", "tripi", "tropa", "caractere", "string", "saturnita", "$", "sahur", "finitini"]),
 ("LACO_DE_REPETICAO",
  ["tung"],
  ["tralalero", "tralala", "porcodio", "porcoala", "batapim", "chimpanzini", "lirili", "dunmadin", "tung", "=", "id",
   "valor_inteiro", "valor_real", "tripi", "tropa", "caractere", "string", "saturnita", "$", "sahur", "finitini"]),
 ("BLOCO",
  ["delimitare", "sahur"],
  ["tralalero", "tralala", "porcodio", "porcoala", "batapim", "chimpanzini", "lirili", "dunmadin", "tung", "=", "id",
   "valor_inteiro", "valor_real", "tripi", "tropa", "caractere", "string", "saturnita", "$", "sahur", "finitini",
   "larila"]),
 ("BLOCO_REPETICAO",
  ["sahur"],
  ["tralalero", "tralala", "porcodio", "porcoala", "batapim", "chimpanzini", "lirili", "dunmadin", "tung", "=", "id",
   "valor_inteiro", "valor_real", "tripi", "tropa", "caractere", "string", "saturnita", "$", "sahur", "finitini",
   "larila"]),
 ("BLOCO_DECISAO",
  ["delimitare"],
  ["tralalero", "tralala", "porcodio", "porcoala", "batapim", "chimpanzini", "lirili", "dunmadin", "tung", "=", "id",
   "valor_inteiro", "valor_real", "tripi", "tropa", "caractere", "string", "saturnita", "$", "sahur", "finitini",
   "larila"]),
 ("COMENTARIO",
  ["saturnita"],
  ["tralalero", "tralala", "porcodio", "porcoala", "batapim", "chimpanzini", "lirili", "dunmadin", "tung", "=", "id",
   "valor_inteiro", "valor_real", "tripi", "tropa", "caractere", "string", "saturnita", "$", "sahur", "finitini"]),
 ("TIPO_DE_VARIAVEL", ["tralalero", "tralala", "porcodio", "porcoala"], ["id"]),
 ("OPERADOR_ARITMETICO",
  ["+", "-", "*", "/", "%"],
  ["id", "valor_inteiro", "valor_real", "tripi", "tropa", "caractere", "string"]),
 ("OPERADOR_RELACIONAL",
  ["==", "!=", ">", "<", "<=", ">="],
  ["id", "valor_inteiro", "valor_real", "tripi", "tropa", "caractere", "string"]),
 ("OPERADOR_LOGICO", ["&&", "||"], ["id", "valor_inteiro", "valor_real", "tripi", "tropa", "caractere", "string"]),
 ("TERMO",
  ["id", "valor_inteiro", "valor_real", "tripi", "tropa", "caractere", "string"],
  ["tralalero", "tralala", "porcodio", "porcoala", "batapim", "chimpanzini", "lirili", "dunmadin", "tung", "=", "id",
   "valor_inteiro", "valor_real", "tripi", "tropa", "caractere", "string", "saturnita", "$", "sahur", "finitini", ";",
   "+", "-", "*", "/", "%", "==", "!=", ">", "<", "<=", ">=", "&&", "||", "delimitare", ")"]),
 ("VALOR_BOOL",
  ["tripi", "tropa"],
  ["tralalero", "tralala", "porcodio", "porcoala", "batapim", "chimpanzini", "lirili", "dunmadin", "tung", "=", "id",
   "valor_inteiro", "valor_real", "tripi", "tropa", "caractere", "string", "saturnita", "$", "sahur", "finitini", ";",
   "+", "-", "*", "/", "%", "==", "!=", ">", "<", "<=", ">=", "&&", "||", "delimitare", ")"])]

/-- The computation path of `compute_first_follow` on the shipped grammar
returns exactly `shippedFF`. -/
theorem compute_first_follow_shipped :
    compute_first_follow 100000 gramatica = some shippedFF := by decide

/-- The FIRST component of `shippedFF`. -/
def shippedFirst : List (Sym × List Sym) := shippedFF.map (fun kv => (kv.1, kv.2.1))

/-- The FOLLOW component of `shippedFF`. -/
def shippedFollow : List (Sym × List Sym) := shippedFF.map (fun kv => (kv.1, kv.2.2))

/-- C5 (amended): `compute_first_follow` performs a single FOLLOW pass in key
order rather than iterating to a fixed point, so its result is a fixed point
of the follow update only when the declaration order happens to respect the
FOLLOW dependencies; the shipped grammar's declaration order does, and for it
the returned sets are stable: applying `compute_follow` once more leaves the
FOLLOW set of every nonterminal unchanged as a set. For grammars whose
declaration order has a backward FOLLOW dependency this fails (see the
counterexample on `followGapGrammar`). -/
theorem shipped_follow_fixed_point_all :
    ∀ kv ∈ gramatica,
      (compute_follow kv.1 gramatica shippedFirst shippedFollow).map
        (fun f => setEqS f ((List.lookup kv.1 shippedFollow).getD [])) = some true := by
  decide

/-- C5 witness: the amended fixed-point statement applied to the nonterminal
COMANDO of the shipped grammar. -/
theorem shipped_follow_fixed_point_witness :
    (compute_follow "COMANDO" gramatica shippedFirst shippedFollow).map
      (fun f => setEqS f ((List.lookup "COMANDO" shippedFollow).getD [])) = some true :=
  shipped_follow_fixed_point_all
    ("COMANDO",
      [["DECLARACAO"], ["ENTRADA"], ["SAIDA"], ["DECISAO"], ["LACO_CONTADO"],
       ["LACO_DE_REPETICAO"], ["ATRIBUICAO"], ["COMENTARIO"]])
    (by decide)

end IBR
